import Mathlib

/-!
Verification development for the `dazibao` status-page server (`main.go`).

The Go program renders a self-refreshing status page from the output of
user-defined shell commands and built-in variables, grouped into display
blocks.  Each block has its own scheduler goroutine (`runBlock`) that, on
every tick, executes the block's commands and writes the results into the
shared `config` tree while holding the single global mutex; HTTP handlers
read that tree under the same mutex.

This file gives a shallow embedding of the relevant parts of `main.go`:

* the configuration data model (`BlockColors`, `GlobalColors`, `Command`,
  `Block`, `Config`) with timestamps modelled as naturals;
* `resolveVariable` and `executeCommandOrVariable`, with the operating
  system (hostname, clock readings, user name, interface addresses) and the
  shell presented as explicit oracle parameters;
* one loop iteration of `runBlock` (`tickBlock` / `tickConfig`), and the
  persistence function `saveConfigToFile` modelled as a JSON encoder
  (`encodeConfig`) paired with the loader `getFreshConfig` (`decodeConfig`
  plus the port default);
* a fine-grained transition system (`Step`) in which each scheduler
  acquires the global mutex, executes its commands one at a time while
  holding it, and stamps/releases at commit, mirroring the lock structure
  of `runBlock` and `dataHandler`.
-/

namespace Dazibao

/-- Time instants. Go's `time.Time` values are modelled as naturals; the
only operations the program performs on them are assignment from the
current clock and (in the spec) comparison. -/
abbrev Time := Nat

/-- Mirror of `BlockColors` (main.go lines 31-42): per-block styling.
Every field carries the `omitempty` JSON option. -/
structure BlockColors where
  background : String := ""
  title_color : String := ""
  title_background : String := ""
  title_font_size : String := ""
  label_color : String := ""
  label_background : String := ""
  label_font_size : String := ""
  value_color : String := ""
  value_background : String := ""
  value_font_size : String := ""
deriving Repr, DecidableEq

/-- Mirror of `GlobalColors` (main.go lines 45-47). -/
structure GlobalColors where
  page_background : String := ""
deriving Repr, DecidableEq

/-- Mirror of `Command` (main.go lines 50-54): one labelled command of a
group block, with its cached output. -/
structure Command where
  label : String := ""
  command : String := ""
  output : String := ""
deriving Repr, DecidableEq

/-- Mirror of `Block` (main.go lines 57-66).  `type` is the dispatch tag
("single" or "group"); `command`/`output` are used by single blocks and
`commands` by group blocks. -/
structure Block where
  type : String := ""
  title : String := ""
  command : String := ""
  commands : List Command := []
  interval : Int := 0
  output : String := ""
  last_updated : Time := 0
  colors : BlockColors := {}
deriving Repr, DecidableEq

/-- Mirror of `Config` (main.go lines 69-75): the whole configuration
tree.  Go's `[]*Block` is modelled as a list of values; `runBlock`'s
in-place mutation of a block through its pointer becomes an update of the
list at the block's index. -/
structure Config where
  blocks : List Block := []
  last_updated : Time := 0
  port : Int := 0
  version : String := ""
  colors : GlobalColors := {}
deriving Repr, DecidableEq

/-- Result of one interface address as inspected by the `%ip_address`
case of `resolveVariable` (main.go lines 668-680): whether the
`*net.IPNet` type assertion succeeds, whether the address is loopback,
whether `To4()` is non-nil, and its string rendering. -/
structure Addr where
  isIPNet : Bool
  isLoopback : Bool
  hasIPv4 : Bool
  ipString : String
deriving Repr, DecidableEq

/-- Oracle for the operating-system queries performed by
`resolveVariable`: the clock renderings produced by `time.Now().Format`,
plus the fallible hostname / user / interface-address queries (errors
carry the Go error's message text).  `appVersion` is the global `version`
string set by ldflags. -/
structure OsEnv where
  hostname : Except String String := .ok ""
  timeOfDay : String := ""
  dateYMD : String := ""
  year : String := ""
  month : String := ""
  day : String := ""
  dayname : String := ""
  hours : String := ""
  minutes : String := ""
  seconds : String := ""
  username : Except String String := .ok ""
  interfaceAddrs : Except String (List Addr) := .ok []
  appVersion : String := ""

/-- Constant `appName` (main.go line 92). -/
def appName : String := "Dazibao"

/-- Loop of the `%ip_address` case (main.go lines 673-679): return the
string of the first address that is an `IPNet`, not loopback, and has an
IPv4 form; after the loop, "N/A". -/
def firstIPv4 : List Addr → String
  | [] => "N/A"
  | a :: rest =>
    if a.isIPNet && !a.isLoopback && a.hasIPv4 then a.ipString else firstIPv4 rest

/-- Mirror of `resolveVariable` (main.go lines 636-688): a total map from
a variable reference to its value string.  OS-query failures are rendered
inline as `"Error: " ++ message` (the `fmt.Sprintf("Error: %v", err)`
calls); the default case yields the fixed placeholder. -/
def resolveVariable (env : OsEnv) (v : String) : String :=
  match v with
  | "%hostname" =>
    match env.hostname with
    | .error e => "Error: " ++ e
    | .ok h => h
  | "%time" => env.timeOfDay
  | "%date" => env.dateYMD
  | "%year" => env.year
  | "%month" => env.month
  | "%day" => env.day
  | "%dayname" => env.dayname
  | "%hours" => env.hours
  | "%minutes" => env.minutes
  | "%seconds" => env.seconds
  | "%username" =>
    match env.username with
    | .error e => "Error: " ++ e
    | .ok u => u
  | "%ip_address" =>
    match env.interfaceAddrs with
    | .error e => "Error: " ++ e
    | .ok addrs => firstIPv4 addrs
  | "%app_name" => appName
  | "%app_version" => env.appVersion
  | _ => "Unknown variable"

/-- Variable names recognised by the `switch` of `resolveVariable`. -/
def recognizedVariables : List String :=
  ["%hostname", "%time", "%date", "%year", "%month", "%day", "%dayname",
   "%hours", "%minutes", "%seconds", "%username", "%ip_address",
   "%app_name", "%app_version"]

/-- Oracle for `exec.Command("bash", "-c", s).CombinedOutput()`: either
the combined stdout+stderr text, or an error message (non-zero exit or
spawn failure, carrying the Go error's text). -/
abbrev Shell := String → Except String String

/-- Condition `len(cmdStr) > 1 && cmdStr[0] == '%'` of
`executeCommandOrVariable` (main.go line 622).  Go measures bytes and
inspects the first byte; because `'%'` is ASCII this coincides with "at
least two characters and the first is `'%'`". -/
def isVariableRef (s : String) : Bool :=
  match s.data with
  | c :: _ :: _ => c = '%'
  | _ => false

/-- Characters treated as white space by `unicode.IsSpace` (the ASCII
classes plus NEL and NBSP; the remaining Unicode space classes do not
occur in the values considered here and are omitted from the model). -/
def isSpaceChar (c : Char) : Bool :=
  c = ' ' || c = '\t' || c = '\n' || c = '\x0b' || c = '\x0c' || c = '\r' ||
    c = (Char.ofNat 0x85) || c = (Char.ofNat 0xA0)

/-- Removal of leading white space from a character list. -/
def dropLeadingSpaces : List Char → List Char
  | [] => []
  | c :: cs => if isSpaceChar c then dropLeadingSpaces cs else c :: cs

/-- Model of `strings.TrimSpace`: remove trailing, then leading, white
space. -/
def trimSpace (s : String) : String :=
  ⟨dropLeadingSpaces ((dropLeadingSpaces s.data.reverse).reverse)⟩

/-- Mirror of `executeCommandOrVariable` (main.go lines 621-631).  The
second component records whether the shell was invoked.  A variable
reference always succeeds with the resolver's value; otherwise the shell
runs the full string, success returning the output with surrounding
whitespace trimmed (`strings.TrimSpace`) and failure propagating the
error. -/
def executeCommandOrVariable (shell : Shell) (env : OsEnv) (cmdStr : String) :
    Except String String × Bool :=
  if isVariableRef cmdStr then
    (.ok (resolveVariable env cmdStr), false)
  else
    match shell cmdStr with
    | .error e => (.error e, true)
    | .ok out => (.ok (trimSpace out), true)

/-- Value stored into an output slot by a tick: the command's result, or
the inline `"Error: " ++ message` text produced by
`fmt.Sprintf("Error: %v", err)` in `runBlock` (main.go lines 597 and
606). -/
def execSlot (shell : Shell) (env : OsEnv) (cmd : String) : String :=
  match (executeCommandOrVariable shell env cmd).1 with
  | .error e => "Error: " ++ e
  | .ok out => out

/-- Mirror of the body of one `runBlock` loop iteration restricted to the
block it updates (main.go lines 592-612): dispatch on the type tag
("single" writes the single output slot, "group" writes every command's
slot in declared order, any other tag matches no case), then stamp the
block's `last_updated` with the current time. -/
def tickBlock (shell : Shell) (env : OsEnv) (now : Time) (b : Block) : Block :=
  let b' : Block :=
    if b.type = "single" then { b with output := execSlot shell env b.command }
    else if b.type = "group" then
      { b with commands :=
          b.commands.map fun c => { c with output := execSlot shell env c.command } }
    else b
  { b' with last_updated := now }

/-- Command strings submitted to `executeCommandOrVariable` by one tick
of `runBlock`, read off the same `switch` as `tickBlock`: one for a
single block, each command in declared order for a group block, none for
any other tag. -/
def tickExecLog (b : Block) : List String :=
  if b.type = "single" then [b.command]
  else if b.type = "group" then b.commands.map fun c => c.command
  else []

/-- Update of the element at index `i` of a list (identity when out of
range); stands for `runBlock`'s in-place mutation of `config.Blocks[i]`
through the block pointer. -/
def updateAt (i : Nat) (f : α → α) : List α → List α
  | [] => []
  | x :: xs =>
    match i with
    | 0 => f x :: xs
    | n + 1 => x :: updateAt n f xs

/-- Mirror of one full `runBlock` iteration over the whole tree (main.go
lines 591-614): while the mutex is held, block `i` is ticked and the
global `last_updated` is stamped.  Go calls `time.Now()` twice in
immediate succession (lines 612-613); both readings are modelled as the
single instant `now`. -/
def tickConfig (shell : Shell) (env : OsEnv) (now : Time) (i : Nat) (cfg : Config) :
    Config :=
  { cfg with
    blocks := updateAt i (tickBlock shell env now) cfg.blocks
    last_updated := now }

/-! JSON model of the persisted configuration format.  `saveConfigToFile`
(main.go lines 554-574) writes `json.MarshalIndent(cfg)` to
`~/.dazibao/config.json`; `getFreshConfig` (lines 455-477) reads the file
back with `json.Unmarshal` and defaults a zero port to 8080.  The encoder
below follows the struct tags of main.go field by field (`omitempty`
omits empty strings and empty slices; struct-typed fields are never
omitted, matching encoding/json).  `time.Time` marshals to an RFC3339
string whose parse exactly inverts it; that pair is modelled as the
injective scalar encoding `Json.num`. -/

/-- JSON values (object fields in order, as emitted by encoding/json). -/
inductive Json where
  | null : Json
  | bool : Bool → Json
  | num : Int → Json
  | str : String → Json
  | arr : List Json → Json
  | obj : List (String × Json) → Json
deriving Repr

/-- Field emitted only when the string is non-empty (`omitempty`). -/
def optStr (k v : String) : List (String × Json) :=
  if v = "" then [] else [(k, Json.str v)]

/-- Sequence of `omitempty` string fields. -/
def optStrFields : List (String × String) → List (String × Json)
  | [] => []
  | (k, v) :: rest => optStr k v ++ optStrFields rest

/-- Encoding of `BlockColors` (all fields `omitempty`). -/
def encodeBlockColors (c : BlockColors) : Json :=
  Json.obj (optStrFields
    [("background", c.background), ("title_color", c.title_color),
     ("title_background", c.title_background), ("title_font_size", c.title_font_size),
     ("label_color", c.label_color), ("label_background", c.label_background),
     ("label_font_size", c.label_font_size), ("value_color", c.value_color),
     ("value_background", c.value_background), ("value_font_size", c.value_font_size)])

/-- Encoding of `GlobalColors`. -/
def encodeGlobalColors (g : GlobalColors) : Json :=
  Json.obj (optStrFields [("page_background", g.page_background)])

/-- Encoding of `Command` (no `omitempty` options). -/
def encodeCommand (c : Command) : Json :=
  Json.obj [("label", Json.str c.label), ("command", Json.str c.command),
            ("output", Json.str c.output)]

/-- Encoding of the model timestamp (see the section comment). -/
def encodeTime (t : Time) : Json := Json.num (Int.ofNat t)

/-- Fields of an encoded `Block`, in declaration order; `command`,
`commands` and `output` are `omitempty`; `colors` is a struct and hence
always emitted. -/
def encodeBlockFields (b : Block) : List (String × Json) :=
  [("type", Json.str b.type), ("title", Json.str b.title)]
  ++ optStr "command" b.command
  ++ (if b.commands.isEmpty then []
      else [("commands", Json.arr (b.commands.map encodeCommand))])
  ++ [("interval", Json.num b.interval)]
  ++ optStr "output" b.output
  ++ [("last_updated", encodeTime b.last_updated),
      ("colors", encodeBlockColors b.colors)]

/-- Encoding of `Block`. -/
def encodeBlock (b : Block) : Json := Json.obj (encodeBlockFields b)

/-- Fields of an encoded `Config`: `blocks`, `last_updated`, `port` and
`version` carry no `omitempty`; `colors` is a struct and always
emitted. -/
def encodeConfigFields (cfg : Config) : List (String × Json) :=
  [("blocks", Json.arr (cfg.blocks.map encodeBlock)),
   ("last_updated", encodeTime cfg.last_updated),
   ("port", Json.num cfg.port),
   ("version", Json.str cfg.version),
   ("colors", encodeGlobalColors cfg.colors)]

/-- Encoding of `Config`. -/
def encodeConfig (cfg : Config) : Json := Json.obj (encodeConfigFields cfg)

/-- Lookup of an object field by key (first occurrence). -/
def getField (fs : List (String × Json)) (k : String) : Option Json :=
  (fs.find? fun p => p.1 == k).map fun p => p.2

/-- Decoding of a string field: missing or JSON null leaves the zero
value `""`; a non-string value is an unmarshal error. -/
def decStr (fs : List (String × Json)) (k : String) : Option String :=
  match getField fs k with
  | none => some ""
  | some Json.null => some ""
  | some (Json.str s) => some s
  | some _ => none

/-- Decoding of an int field: missing or null leaves `0`. -/
def decInt (fs : List (String × Json)) (k : String) : Option Int :=
  match getField fs k with
  | none => some 0
  | some Json.null => some 0
  | some (Json.num n) => some n
  | some _ => none

/-- Decoding of a timestamp field: missing or null leaves the zero
time. -/
def decTime (fs : List (String × Json)) (k : String) : Option Time :=
  match getField fs k with
  | none => some 0
  | some Json.null => some 0
  | some (Json.num (Int.ofNat n)) => some n
  | some _ => none

/-- Decoding of the fields of `BlockColors` (failure of any single
field fails the whole unmarshal, as in encoding/json). -/
def decodeBlockColorsFields (fs : List (String × Json)) : Option BlockColors :=
  match decStr fs "background", decStr fs "title_color", decStr fs "title_background",
      decStr fs "title_font_size", decStr fs "label_color", decStr fs "label_background",
      decStr fs "label_font_size", decStr fs "value_color", decStr fs "value_background",
      decStr fs "value_font_size" with
  | some background, some title_color, some title_background, some title_font_size,
      some label_color, some label_background, some label_font_size, some value_color,
      some value_background, some value_font_size =>
    some { background := background, title_color := title_color,
           title_background := title_background, title_font_size := title_font_size,
           label_color := label_color, label_background := label_background,
           label_font_size := label_font_size, value_color := value_color,
           value_background := value_background, value_font_size := value_font_size }
  | _, _, _, _, _, _, _, _, _, _ => none

/-- Decoding of `BlockColors`. -/
def decodeBlockColors : Json → Option BlockColors
  | Json.null => some {}
  | Json.obj fs => decodeBlockColorsFields fs
  | _ => none

/-- Decoding of `GlobalColors`. -/
def decodeGlobalColors : Json → Option GlobalColors
  | Json.null => some {}
  | Json.obj fs =>
    match decStr fs "page_background" with
    | some page_background => some { page_background := page_background }
    | none => none
  | _ => none

/-- Decoding of `Command`. -/
def decodeCommand : Json → Option Command
  | Json.null => some {}
  | Json.obj fs =>
    match decStr fs "label", decStr fs "command", decStr fs "output" with
    | some label, some command, some output =>
      some { label := label, command := command, output := output }
    | _, _, _ => none
  | _ => none

/-- Decoding of a `commands` field: missing or null leaves the zero
value (nil slice); an array unmarshals element-wise. -/
def decCommands (fs : List (String × Json)) : Option (List Command) :=
  match getField fs "commands" with
  | none => some []
  | some Json.null => some []
  | some (Json.arr xs) => xs.mapM decodeCommand
  | some _ => none

/-- Decoding of a `colors` field of a block: missing leaves the zero
value. -/
def decBlockColorsField (fs : List (String × Json)) : Option BlockColors :=
  match getField fs "colors" with
  | none => some {}
  | some j => decodeBlockColors j

/-- Decoding of `Block`. -/
def decodeBlock : Json → Option Block
  | Json.null => some {}
  | Json.obj fs =>
    match decStr fs "type", decStr fs "title", decStr fs "command", decCommands fs,
        decInt fs "interval", decStr fs "output", decTime fs "last_updated",
        decBlockColorsField fs with
    | some type, some title, some command, some commands, some interval,
        some output, some last_updated, some colors =>
      some { type := type, title := title, command := command, commands := commands,
             interval := interval, output := output, last_updated := last_updated,
             colors := colors }
    | _, _, _, _, _, _, _, _ => none
  | _ => none

/-- Decoding of a `blocks` field: missing or null leaves the zero
value; an array unmarshals element-wise. -/
def decBlocks (fs : List (String × Json)) : Option (List Block) :=
  match getField fs "blocks" with
  | none => some []
  | some Json.null => some []
  | some (Json.arr xs) => xs.mapM decodeBlock
  | some _ => none

/-- Decoding of a `colors` field of the tree: missing leaves the zero
value. -/
def decGlobalColorsField (fs : List (String × Json)) : Option GlobalColors :=
  match getField fs "colors" with
  | none => some {}
  | some j => decodeGlobalColors j

/-- Decoding of `Config`. -/
def decodeConfig : Json → Option Config
  | Json.null => some {}
  | Json.obj fs =>
    match decBlocks fs, decTime fs "last_updated", decInt fs "port",
        decStr fs "version", decGlobalColorsField fs with
    | some blocks, some last_updated, some port, some version, some colors =>
      some { blocks := blocks, last_updated := last_updated, port := port,
             version := version, colors := colors }
    | _, _, _, _, _ => none
  | _ => none

/-- Mirror of `getFreshConfig` (main.go lines 455-477) applied to file
contents: unmarshal, then default a zero port to 8080. -/
def getFreshConfigModel (j : Json) : Option Config :=
  (decodeConfig j).map fun c => if c.port = 0 then { c with port := 8080 } else c

/-- Escape of one character for JSON string output (quote and backslash;
the control-character and HTML escapes of encoding/json are not needed
for the values compared here). -/
def escapeChar (c : Char) : String :=
  if c = '"' then "\\\"" else if c = '\\' then "\\\\" else String.singleton c

/-- Escape of a string for JSON output. -/
def escapeString (s : String) : String := String.join (s.data.map escapeChar)

mutual

/-- Compact serialization of a JSON value, modelling `json.Marshal`'s
text output (indentation of `MarshalIndent` abstracted away). -/
def jsonToString : Json → String
  | Json.null => "null"
  | Json.bool b => if b then "true" else "false"
  | Json.num n => toString n
  | Json.str s => "\"" ++ escapeString s ++ "\""
  | Json.arr xs => "[" ++ jsonArrStr xs ++ "]"
  | Json.obj fs => "\x7b" ++ jsonObjStr fs ++ "\x7d"

/-- Comma-separated serialization of array elements. -/
def jsonArrStr : List Json → String
  | [] => ""
  | [x] => jsonToString x
  | x :: y :: rest => jsonToString x ++ "," ++ jsonArrStr (y :: rest)

/-- Comma-separated serialization of object fields. -/
def jsonObjStr : List (String × Json) → String
  | [] => ""
  | [(k, v)] => "\"" ++ escapeString k ++ "\":" ++ jsonToString v
  | (k, v) :: p :: rest =>
    "\"" ++ escapeString k ++ "\":" ++ jsonToString v ++ "," ++ jsonObjStr (p :: rest)

end

/-! Server-mode state: the in-memory tree plus the durable file.  Only
`saveConfigToFile` writes the file; a `runBlock` iteration (lines
591-614) contains no call to it. -/

/-- In-memory tree paired with the persisted file's contents (`none`
when the file does not exist yet). -/
structure ServerState where
  mem : Config
  file : Option Json
deriving Repr

/-- Effect of `saveConfigToFile cfg` (main.go lines 554-574) on the
durable file: one whole-tree overwrite with the marshalled tree. -/
def saveConfigToFileM (cfg : Config) (s : ServerState) : ServerState :=
  { s with file := some (encodeConfig cfg) }

/-- Effect of one `runBlock` loop iteration for block `i` on the server
state: the in-memory tree is updated under the mutex; the iteration's
body (main.go lines 591-614) performs no persistence call, so the file
is untouched. -/
def serverTick (shell : Shell) (env : OsEnv) (now : Time) (i : Nat)
    (s : ServerState) : ServerState :=
  { s with mem := tickConfig shell env now i s.mem }

/-- Tree update performed by `generateAndUpdateStaticHTML` (main.go
lines 421-442): every block is ticked (the per-block switch is the same
as `runBlock`'s) and the global timestamp is stamped. -/
def staticUpdate (shell : Shell) (env : OsEnv) (now : Time) (cfg : Config) : Config :=
  { cfg with blocks := cfg.blocks.map (tickBlock shell env now), last_updated := now }

/-- Persistence effect of `generateAndUpdateStaticHTML` (main.go line
444): the updated tree is saved with `saveConfigToFile`. -/
def staticGenerationPersist (shell : Shell) (env : OsEnv) (now : Time)
    (cfg : Config) (s : ServerState) : ServerState :=
  saveConfigToFileM (staticUpdate shell env now cfg) s

/-! Renderer boundary.  Template parsing and file reads are external
I/O: the parsed template is modelled as an oracle function from the data
it is executed with to the rendered document, and the icon file as an
optional already-base64-encoded content string. -/

/-- Mirror of the anonymous struct handed to `tmpl.Execute` in both
`generateDynamicHTML` (main.go lines 302-308) and `generateHTML` (lines
394-400). -/
structure TemplateData where
  configJSON : String
  iconDataURI : String
deriving Repr, DecidableEq

/-- Icon datum construction (main.go lines 293-300 and 385-392): empty
on read failure, otherwise the data URI around the base64 text. -/
def iconURI : Option String → String
  | none => ""
  | some enc => "data:image/png;base64," ++ enc

/-- Template data built by `generateDynamicHTML` (main.go lines
302-308): the `ConfigJSON` field is the literal text `"null"`,
independently of the configuration tree. -/
def dynamicTemplateData (icon : Option String) : TemplateData :=
  { configJSON := "null", iconDataURI := iconURI icon }

/-- Mirror of `generateDynamicHTML` (main.go lines 282-317), the body of
`rootHandler`: execute the template on the dynamic template data. -/
def generateDynamicHTML (tmpl : TemplateData → String) (icon : Option String) :
    String :=
  tmpl (dynamicTemplateData icon)

/-- Template data built by `generateHTML` (main.go lines 369-409, the
static-generation renderer): the `ConfigJSON` field is
`json.Marshal(cfg)`. -/
def staticTemplateData (cfg : Config) (icon : Option String) : TemplateData :=
  { configJSON := jsonToString (encodeConfig cfg), iconDataURI := iconURI icon }

/-- Mirror of `generateHTML` (main.go lines 369-409). -/
def generateHTML (tmpl : TemplateData → String) (cfg : Config)
    (icon : Option String) : String :=
  tmpl (staticTemplateData cfg icon)

/-- Body of `dataHandler` (main.go lines 768-777): under the mutex, the
current tree is JSON-encoded onto the response. -/
def dataHandlerJson (cfg : Config) : Json := encodeConfig cfg

/-! Fine-grained concurrency model.  `runBlock` (main.go lines 588-616)
acquires the single global mutex, executes the block's commands one at a
time while holding it, stamps the timestamps, and releases; `dataHandler`
acquires the same mutex for the whole read.  The model below makes each
of those lock-protected instructions a transition of an explicit state
machine: one program counter per block scheduler, a lock-holder field for
the mutex, and a global instruction counter `clock` that indexes the
command-execution oracles, so that the same command may observe different
shell output and clock readings on every invocation, as it does at run
time. -/

/-- Program counter of one block's scheduler: parked between ticks, or
inside the critical section with `k` command slots already written. -/
inductive SchedPC where
  | idle : SchedPC
  | running : Nat → SchedPC
deriving Repr, DecidableEq

/-- Global state: the shared tree, each scheduler's program counter, the
mutex holder, and the oracle-indexing instruction counter. -/
structure SysState where
  cfg : Config
  pcs : List SchedPC
  lockHolder : Option Nat
  clock : Nat
deriving Repr

/-- Number of output slots one tick of the block writes: one for
"single", one per command for "group", none for any other tag. -/
def numSlots (b : Block) : Nat :=
  if b.type = "single" then 1
  else if b.type = "group" then b.commands.length
  else 0

/-- Command-execution result at instruction step `n`. -/
def execSlotAt (shells : Nat → Shell) (envs : Nat → OsEnv) (n : Nat)
    (cmd : String) : String :=
  execSlot (shells n) (envs n) cmd

/-- Write of the `k`-th output slot of the tick in progress, the loop
body of `runBlock`'s group case (main.go lines 602-610) or the single
assignment of its single case (lines 594-600), at instruction step
`n`. -/
def writeSlotAt (shells : Nat → Shell) (envs : Nat → OsEnv) (n k : Nat)
    (b : Block) : Block :=
  if b.type = "single" then { b with output := execSlotAt shells envs n b.command }
  else if b.type = "group" then
    { b with
      commands := updateAt k (fun c => { c with output := execSlotAt shells envs n c.command })
        b.commands }
  else b

/-- Timestamp stamp at the end of the tick (main.go line 612). -/
def stampBlock (now : Time) (b : Block) : Block := { b with last_updated := now }

/-- Map with an index running from `n`. -/
def mapIdxFrom (f : Nat → α → β) : Nat → List α → List β
  | _, [] => []
  | n, x :: xs => f n x :: mapIdxFrom f (n + 1) xs

/-- One whole tick of a block whose first command runs at instruction
step `n` (successive commands of a group run at successive steps, since
the scheduler holds the mutex throughout). -/
def tickBlockAt (shells : Nat → Shell) (envs : Nat → OsEnv) (n : Nat) (now : Time)
    (b : Block) : Block :=
  let b' : Block :=
    if b.type = "single" then { b with output := execSlotAt shells envs n b.command }
    else if b.type = "group" then
      { b with
        commands := mapIdxFrom (fun m c => { c with output := execSlotAt shells envs m c.command })
          n b.commands }
    else b
  { b' with last_updated := now }

/-- Transitions of the server in server mode, mirroring the mutex
discipline of `runBlock`: `acquire` is `mutex.Lock()` at the top of a
tick (line 591), `execCmd` is one command execution inside the critical
section, `commit` is the timestamp stamping followed by
`mutex.Unlock()` (lines 612-614). -/
inductive Step (shells : Nat → Shell) (envs : Nat → OsEnv) :
    SysState → SysState → Prop where
  | acquire (s : SysState) (i : Nat)
      (hl : s.lockHolder = none) (hp : s.pcs.get? i = some SchedPC.idle) :
      Step shells envs s
        { s with lockHolder := some i,
                 pcs := updateAt i (fun _ => SchedPC.running 0) s.pcs }
  | execCmd (s : SysState) (i k : Nat) (b : Block)
      (hl : s.lockHolder = some i) (hp : s.pcs.get? i = some (SchedPC.running k))
      (hb : s.cfg.blocks.get? i = some b) (hk : k < numSlots b) :
      Step shells envs s
        { s with
          cfg := { s.cfg with
                   blocks := updateAt i (writeSlotAt shells envs s.clock k) s.cfg.blocks },
          pcs := updateAt i (fun _ => SchedPC.running (k + 1)) s.pcs,
          clock := s.clock + 1 }
  | commit (s : SysState) (i : Nat) (now : Time) (b : Block)
      (hl : s.lockHolder = some i) (hb : s.cfg.blocks.get? i = some b)
      (hp : s.pcs.get? i = some (SchedPC.running (numSlots b))) :
      Step shells envs s
        { s with
          cfg := { s.cfg with
                   blocks := updateAt i (stampBlock now) s.cfg.blocks,
                   last_updated := now },
          pcs := updateAt i (fun _ => SchedPC.idle) s.pcs,
          lockHolder := none }

/-- Startup state: the loaded tree, one parked scheduler per block
(spawned at main.go lines 254-256), mutex free. -/
def initState (cfg0 : Config) : SysState :=
  { cfg := cfg0, pcs := List.replicate cfg0.blocks.length SchedPC.idle,
    lockHolder := none, clock := 0 }

/-- States the server can be in after startup. -/
def Reachable (shells : Nat → Shell) (envs : Nat → OsEnv) (cfg0 : Config)
    (s : SysState) : Prop :=
  Relation.ReflTransGen (Step shells envs) (initState cfg0) s

/-- Mirror of `dataHandler`'s `mutex.Lock()` (main.go line 769): the
read can proceed exactly when no scheduler holds the mutex; it then
observes `s.cfg`. -/
def ReadEnabled (s : SysState) : Prop := s.lockHolder = none

/-- Mirror of `runBlock`'s `mutex.Lock()` (main.go line 591): scheduler
`i`, parked and due, can begin its tick exactly when the mutex is
free. -/
def AcquireEnabled (s : SysState) (i : Nat) : Prop :=
  s.lockHolder = none ∧ s.pcs.get? i = some SchedPC.idle

/-- Block state after a sequence of whole ticks, each recorded as (first
instruction step, stamped time). -/
def wholeTicksAt (shells : Nat → Shell) (envs : Nat → OsEnv) :
    List (Nat × Time) → Block → Block
  | [], b => b
  | p :: rest, b => wholeTicksAt shells envs rest (tickBlockAt shells envs p.1 p.2 b)

/-- Block state in the middle of a tick whose first instruction step is
`c`: the first `k` slots rewritten, the rest and the timestamp still
pre-tick. -/
def midTickAt (shells : Nat → Shell) (envs : Nat → OsEnv) (c k : Nat) (b : Block) :
    Block :=
  (List.range k).foldl (fun x j => writeSlotAt shells envs (c + j) j x) b

/-! Infrastructure lemmas. -/

theorem length_updateAt (f : α → α) : ∀ (l : List α) (i : Nat),
    (updateAt i f l).length = l.length := by
  intro l
  induction l with
  | nil => intro i; simp [updateAt]
  | cons x xs ih =>
    intro i
    cases i with
    | zero => rfl
    | succ n => simpa [updateAt] using ih n

theorem get?_updateAt_self (f : α → α) : ∀ (l : List α) (i : Nat),
    (updateAt i f l).get? i = (l.get? i).map f := by
  intro l
  induction l with
  | nil => intro i; simp [updateAt]
  | cons x xs ih =>
    intro i
    cases i with
    | zero => rfl
    | succ n => simpa [updateAt] using ih n

theorem get?_updateAt_ne (f : α → α) : ∀ (l : List α) (i j : Nat), j ≠ i →
    (updateAt i f l).get? j = l.get? j := by
  intro l
  induction l with
  | nil => intro i j _; simp [updateAt]
  | cons x xs ih =>
    intro i j hne
    cases i with
    | zero =>
      cases j with
      | zero => exact absurd rfl hne
      | succ m => rfl
    | succ n =>
      cases j with
      | zero => rfl
      | succ m => simpa [updateAt] using ih n m (by omega)

theorem mapIdxFrom_get? (f : Nat → α → β) : ∀ (l : List α) (n j : Nat),
    (mapIdxFrom f n l).get? j = (l.get? j).map (f (n + j)) := by
  intro l
  induction l with
  | nil => intro n j; rfl
  | cons x xs ih =>
    intro n j
    cases j with
    | zero => rfl
    | succ m =>
      have h := ih (n + 1) m
      simpa [mapIdxFrom, Nat.add_assoc, Nat.add_comm 1 m] using h

theorem midTickAt_zero (shells : Nat → Shell) (envs : Nat → OsEnv) (c : Nat)
    (b : Block) : midTickAt shells envs c 0 b = b := rfl

theorem midTickAt_succ (shells : Nat → Shell) (envs : Nat → OsEnv) (c k : Nat)
    (b : Block) :
    midTickAt shells envs c (k + 1) b =
      writeSlotAt shells envs (c + k) k (midTickAt shells envs c k b) := by
  unfold midTickAt
  rw [List.range_succ, List.foldl_append]
  rfl

theorem writeSlotAt_type (shells : Nat → Shell) (envs : Nat → OsEnv) (n k : Nat)
    (b : Block) : (writeSlotAt shells envs n k b).type = b.type := by
  unfold writeSlotAt
  split
  · rfl
  · split <;> rfl

theorem writeSlotAt_commands_length (shells : Nat → Shell) (envs : Nat → OsEnv)
    (n k : Nat) (b : Block) :
    (writeSlotAt shells envs n k b).commands.length = b.commands.length := by
  unfold writeSlotAt
  split
  · rfl
  · split
    · simp [length_updateAt]
    · rfl

theorem numSlots_writeSlotAt (shells : Nat → Shell) (envs : Nat → OsEnv)
    (n k : Nat) (b : Block) :
    numSlots (writeSlotAt shells envs n k b) = numSlots b := by
  unfold numSlots
  rw [writeSlotAt_type, writeSlotAt_commands_length]

theorem numSlots_midTickAt (shells : Nat → Shell) (envs : Nat → OsEnv) (c : Nat) :
    ∀ (k : Nat) (b : Block),
    numSlots (midTickAt shells envs c k b) = numSlots b := by
  intro k
  induction k with
  | zero => intro b; rfl
  | succ m ih =>
    intro b
    rw [midTickAt_succ, numSlots_writeSlotAt, ih]

theorem midTickAt_type (shells : Nat → Shell) (envs : Nat → OsEnv) (c : Nat) :
    ∀ (k : Nat) (b : Block), (midTickAt shells envs c k b).type = b.type := by
  intro k
  induction k with
  | zero => intro b; rfl
  | succ m ih =>
    intro b
    rw [midTickAt_succ, writeSlotAt_type, ih]

theorem foldRange_updateAt_get? (g : Nat → α → α) (c : Nat) :
    ∀ (k : Nat) (l : List α) (j : Nat),
    ((List.range k).foldl (fun acc i => updateAt i (g (c + i)) acc) l).get? j =
      if j < k then (l.get? j).map (g (c + j)) else l.get? j := by
  intro k
  induction k with
  | zero => intro l j; simp
  | succ m ih =>
    intro l j
    rw [List.range_succ, List.foldl_append]
    by_cases hj : j = m
    · subst hj
      simp only [List.foldl_cons, List.foldl_nil]
      rw [get?_updateAt_self, ih]
      simp
    · simp only [List.foldl_cons, List.foldl_nil]
      rw [get?_updateAt_ne _ _ _ _ hj, ih]
      by_cases hlt : j < m
      · rw [if_pos hlt, if_pos (by omega)]
      · rw [if_neg hlt, if_neg (by omega)]

theorem foldRange_updateAt_eq_mapIdxFrom (g : Nat → α → α) (c : Nat) (l : List α) :
    (List.range l.length).foldl (fun acc i => updateAt i (g (c + i)) acc) l =
      mapIdxFrom g c l := by
  apply List.ext_get?
  intro j
  rw [foldRange_updateAt_get?, mapIdxFrom_get?]
  by_cases hlt : j < l.length
  · rw [if_pos hlt]
  · rw [if_neg hlt]
    rw [List.get?_eq_none.2 (by omega)]
    rfl

theorem midTickAt_group (shells : Nat → Shell) (envs : Nat → OsEnv) (c : Nat)
    (hb : b.type = "group") : ∀ (k : Nat),
    midTickAt shells envs c k b =
      { b with
        commands := (List.range k).foldl
          (fun acc i =>
            updateAt i (fun x => { x with output := execSlotAt shells envs (c + i) x.command }) acc)
          b.commands } := by
  intro k
  induction k with
  | zero => simp [midTickAt]
  | succ m ih =>
    rw [midTickAt_succ, ih, List.range_succ, List.foldl_append]
    simp only [List.foldl_cons, List.foldl_nil]
    unfold writeSlotAt
    rw [if_neg (by rw [hb]; decide), if_pos hb]

theorem midTickAt_single (shells : Nat → Shell) (envs : Nat → OsEnv) (c : Nat)
    (hb : b.type = "single") :
    midTickAt shells envs c 1 b =
      { b with output := execSlotAt shells envs c b.command } := by
  rw [show (1 : Nat) = 0 + 1 from rfl, midTickAt_succ, midTickAt_zero]
  unfold writeSlotAt
  rw [if_pos hb, Nat.add_zero]

theorem midTickAt_group_full (shells : Nat → Shell) (envs : Nat → OsEnv) (c : Nat)
    (hb : b.type = "group") :
    midTickAt shells envs c b.commands.length b =
      { b with
        commands := mapIdxFrom
          (fun n x => { x with output := execSlotAt shells envs n x.command })
          c b.commands } := by
  rw [midTickAt_group shells envs c hb]
  have hf := foldRange_updateAt_eq_mapIdxFrom
    (fun n (x : Command) => { x with output := execSlotAt shells envs n x.command })
    c b.commands
  exact congrArg (fun cs => { b with commands := cs }) hf

theorem stamp_midTickAt_full (shells : Nat → Shell) (envs : Nat → OsEnv)
    (c : Nat) (now : Time) (b : Block) :
    stampBlock now (midTickAt shells envs c (numSlots b) b) =
      tickBlockAt shells envs c now b := by
  by_cases h1 : b.type = "single"
  · rw [show numSlots b = 1 by unfold numSlots; rw [if_pos h1]]
    rw [midTickAt_single shells envs c h1]
    unfold tickBlockAt stampBlock
    rw [if_pos h1]
  · by_cases h2 : b.type = "group"
    · rw [show numSlots b = b.commands.length by unfold numSlots; rw [if_neg h1, if_pos h2]]
      rw [midTickAt_group_full shells envs c h2]
      unfold tickBlockAt stampBlock
      rw [if_neg h1, if_pos h2]
    · rw [show numSlots b = 0 by unfold numSlots; rw [if_neg h1, if_neg h2]]
      rw [midTickAt_zero]
      unfold tickBlockAt stampBlock
      rw [if_neg h1, if_neg h2]

theorem wholeTicksAt_append (shells : Nat → Shell) (envs : Nat → OsEnv) :
    ∀ (h1 h2 : List (Nat × Time)) (b : Block),
    wholeTicksAt shells envs (h1 ++ h2) b =
      wholeTicksAt shells envs h2 (wholeTicksAt shells envs h1 b) := by
  intro h1
  induction h1 with
  | nil => intro h2 b; rfl
  | cons p rest ih => intro h2 b; simp [wholeTicksAt, ih]

/-! Invariant of the fine-grained system: a parked scheduler's block is
always at a whole-tick boundary; a scheduler inside the critical section
owns the mutex and its block has exactly its first `k` slots rewritten. -/

/-- Per-block part of the invariant. -/
def BlockInv (shells : Nat → Shell) (envs : Nat → OsEnv) (s : SysState)
    (b0 : Block) (i : Nat) : Prop :=
  (s.pcs.get? i = some SchedPC.idle →
    ∃ hist, s.cfg.blocks.get? i = some (wholeTicksAt shells envs hist b0)) ∧
  (∀ k, s.pcs.get? i = some (SchedPC.running k) →
    ∃ hist c, s.clock = c + k ∧
      s.cfg.blocks.get? i =
        some (midTickAt shells envs c k (wholeTicksAt shells envs hist b0)))

/-- System invariant: one program counter per block, only the mutex
holder is mid-tick, and every block satisfies its per-block
invariant. -/
def Inv (shells : Nat → Shell) (envs : Nat → OsEnv) (cfg0 : Config)
    (s : SysState) : Prop :=
  s.pcs.length = cfg0.blocks.length ∧
  (∀ j k, s.pcs.get? j = some (SchedPC.running k) → s.lockHolder = some j) ∧
  (∀ j b0, cfg0.blocks.get? j = some b0 → BlockInv shells envs s b0 j)

theorem Inv_init (shells : Nat → Shell) (envs : Nat → OsEnv) (cfg0 : Config) :
    Inv shells envs cfg0 (initState cfg0) := by
  refine ⟨by simp [initState], ?_, ?_⟩
  · intro j k hjk
    have hmem := List.get?_mem hjk
    have := List.eq_of_mem_replicate hmem
    exact absurd this (by simp)
  · intro j b0 hj
    constructor
    · intro _
      exact ⟨[], by simpa [initState, wholeTicksAt] using hj⟩
    · intro k hk
      have hmem := List.get?_mem hk
      have := List.eq_of_mem_replicate hmem
      exact absurd this (by simp)

theorem Inv_step (shells : Nat → Shell) (envs : Nat → OsEnv) (cfg0 : Config)
    {s s' : SysState} (hInv : Inv shells envs cfg0 s)
    (hstep : Step shells envs s s') : Inv shells envs cfg0 s' := by
  obtain ⟨hlen, hmx, hblk⟩ := hInv
  cases hstep with
  | acquire i hl hp =>
    refine ⟨by simpa [length_updateAt] using hlen, ?_, ?_⟩
    · intro j k hjk
      by_cases hji : j = i
      · subst hji; rfl
      · rw [get?_updateAt_ne _ _ _ _ hji] at hjk
        have h2 := hmx j k hjk
        rw [hl] at h2
        exact Option.noConfusion h2
    · intro j b0 hj
      have hbj := hblk j b0 hj
      by_cases hji : j = i
      · subst hji
        constructor
        · intro hidle
          rw [get?_updateAt_self, hp] at hidle
          simp at hidle
        · intro k hk
          rw [get?_updateAt_self, hp] at hk
          simp only [Option.map_some'] at hk
          have hk0 : k = 0 := by
            cases hk
            rfl
          subst hk0
          obtain ⟨hist, hcfg⟩ := hbj.1 hp
          exact ⟨hist, s.clock, by simp, by simpa [midTickAt_zero] using hcfg⟩
      · constructor
        · intro hidle
          rw [get?_updateAt_ne _ _ _ _ hji] at hidle
          exact hbj.1 hidle
        · intro k hk
          rw [get?_updateAt_ne _ _ _ _ hji] at hk
          have h2 := hmx j k hk
          rw [hl] at h2
          exact Option.noConfusion h2
  | execCmd i k b hl hp hb hk =>
    refine ⟨by simpa [length_updateAt] using hlen, ?_, ?_⟩
    · intro j k' hjk
      by_cases hji : j = i
      · subst hji; exact hl
      · rw [get?_updateAt_ne _ _ _ _ hji] at hjk
        exact hmx j k' hjk
    · intro j b0 hj
      have hbj := hblk j b0 hj
      by_cases hji : j = i
      · subst hji
        constructor
        · intro hidle
          rw [get?_updateAt_self, hp] at hidle
          simp at hidle
        · intro k' hk'
          rw [get?_updateAt_self, hp] at hk'
          simp only [Option.map_some'] at hk'
          have hk1 : k' = k + 1 := by
            cases hk'
            rfl
          subst hk1
          obtain ⟨hist, c, hclock, hcfg⟩ := hbj.2 k hp
          have hbmid : b = midTickAt shells envs c k
              (wholeTicksAt shells envs hist b0) := by
            rw [hb] at hcfg
            exact Option.some.inj hcfg
          refine ⟨hist, c, by simp; omega, ?_⟩
          show (updateAt j (writeSlotAt shells envs s.clock k) s.cfg.blocks).get? j = _
          rw [get?_updateAt_self, hb]
          simp only [Option.map_some']
          rw [hbmid, hclock, ← midTickAt_succ]
      · constructor
        · intro hidle
          rw [get?_updateAt_ne _ _ _ _ hji] at hidle
          obtain ⟨hist, hcfg⟩ := hbj.1 hidle
          refine ⟨hist, ?_⟩
          show (updateAt i (writeSlotAt shells envs s.clock k) s.cfg.blocks).get? j = _
          rw [get?_updateAt_ne _ _ _ _ hji]
          exact hcfg
        · intro k' hk'
          rw [get?_updateAt_ne _ _ _ _ hji] at hk'
          have h2 := hmx j k' hk'
          rw [hl] at h2
          exact absurd (Option.some.inj h2).symm hji
  | commit i now b hl hb hp =>
    refine ⟨by simpa [length_updateAt] using hlen, ?_, ?_⟩
    · intro j k' hjk
      by_cases hji : j = i
      · subst hji
        rw [get?_updateAt_self, hp] at hjk
        simp at hjk
      · rw [get?_updateAt_ne _ _ _ _ hji] at hjk
        have h2 := hmx j k' hjk
        rw [hl] at h2
        exact absurd (Option.some.inj h2).symm hji
    · intro j b0 hj
      have hbj := hblk j b0 hj
      by_cases hji : j = i
      · subst hji
        constructor
        · intro _
          obtain ⟨hist, c, hclock, hcfg⟩ := hbj.2 (numSlots b) hp
          have hbmid : b = midTickAt shells envs c (numSlots b)
              (wholeTicksAt shells envs hist b0) := by
            rw [hb] at hcfg
            exact Option.some.inj hcfg
          have hnum : numSlots b =
              numSlots (wholeTicksAt shells envs hist b0) := by
            conv_lhs => rw [hbmid]
            rw [numSlots_midTickAt]
          refine ⟨hist ++ [(c, now)], ?_⟩
          show (updateAt j (stampBlock now) s.cfg.blocks).get? j = _
          rw [get?_updateAt_self, hb]
          simp only [Option.map_some']
          rw [wholeTicksAt_append]
          show some (stampBlock now b) =
            some (tickBlockAt shells envs c now (wholeTicksAt shells envs hist b0))
          rw [hbmid, hnum, stamp_midTickAt_full]
        · intro k' hk'
          rw [get?_updateAt_self, hp] at hk'
          simp at hk'
      · constructor
        · intro hidle
          rw [get?_updateAt_ne _ _ _ _ hji] at hidle
          obtain ⟨hist, hcfg⟩ := hbj.1 hidle
          refine ⟨hist, ?_⟩
          show (updateAt i (stampBlock now) s.cfg.blocks).get? j = _
          rw [get?_updateAt_ne _ _ _ _ hji]
          exact hcfg
        · intro k' hk'
          rw [get?_updateAt_ne _ _ _ _ hji] at hk'
          have h2 := hmx j k' hk'
          rw [hl] at h2
          exact absurd (Option.some.inj h2).symm hji

theorem Inv_reachable (shells : Nat → Shell) (envs : Nat → OsEnv) (cfg0 : Config)
    {s : SysState} (h : Reachable shells envs cfg0 s) :
    Inv shells envs cfg0 s := by
  induction h with
  | refl => exact Inv_init shells envs cfg0
  | tail _ hstep ih => exact Inv_step shells envs cfg0 ih hstep

/-! Concrete fixtures used to exercise the transition system. -/

/-- Constant shell oracle family. -/
def shellsW : Nat → Shell := fun _ _ => Except.ok "out"

/-- Constant OS oracle family. -/
def envsW : Nat → OsEnv := fun _ => {}

/-- Sample single block. -/
def blkW : Block := { type := "single", title := "t", command := "c", interval := 1 }

/-- Sample one-block tree. -/
def cfgW : Config := { blocks := [blkW], port := 8080 }

/-- State of the sample system after one complete tick of its block,
stamped at time 5. -/
def sW : SysState :=
  { cfg := { blocks := [stampBlock 5 (writeSlotAt shellsW envsW 0 0 blkW)],
             last_updated := 5, port := 8080, version := "", colors := {} },
    pcs := [SchedPC.idle], lockHolder := none, clock := 1 }

theorem reachW : Reachable shellsW envsW cfgW sW := by
  have h1 : Step shellsW envsW (initState cfgW)
      { cfg := cfgW, pcs := [SchedPC.running 0], lockHolder := some 0, clock := 0 } :=
    Step.acquire (initState cfgW) 0 rfl rfl
  have h2 : Step shellsW envsW
      { cfg := cfgW, pcs := [SchedPC.running 0], lockHolder := some 0, clock := 0 }
      { cfg := { blocks := [writeSlotAt shellsW envsW 0 0 blkW], last_updated := 0,
                 port := 8080, version := "", colors := {} },
        pcs := [SchedPC.running 1], lockHolder := some 0, clock := 1 } :=
    Step.execCmd _ 0 0 blkW rfl rfl rfl (by decide)
  have h3 : Step shellsW envsW
      { cfg := { blocks := [writeSlotAt shellsW envsW 0 0 blkW], last_updated := 0,
                 port := 8080, version := "", colors := {} },
        pcs := [SchedPC.running 1], lockHolder := some 0, clock := 1 } sW :=
    Step.commit _ 0 5 (writeSlotAt shellsW envsW 0 0 blkW) rfl rfl (by decide)
  exact Relation.ReflTransGen.tail
    (Relation.ReflTransGen.tail (Relation.ReflTransGen.single h1) h2) h3

/-- Claim C2 (confirmed): whenever the JSON data endpoint's read can
proceed — `dataHandler`'s `mutex.Lock()` succeeds only when no
scheduler's tick is in flight — the snapshot it observes shows every
block in a state produced by a whole number of complete ticks: for each
block, either the entire pre-tick state or the entire committed
post-tick state of any tick, never some command outputs from one tick
and some from another within one block. -/
theorem snapshot_sees_whole_ticks_only
    (shells : Nat → Shell) (envs : Nat → OsEnv) (cfg0 : Config) (s : SysState)
    (hreach : Reachable shells envs cfg0 s) (hread : ReadEnabled s)
    (i : Nat) (b0 : Block) (hb0 : cfg0.blocks.get? i = some b0) :
    ∃ hist, s.cfg.blocks.get? i = some (wholeTicksAt shells envs hist b0) := by
  obtain ⟨hlen, hmx, hblk⟩ := Inv_reachable shells envs cfg0 hreach
  have hbi := hblk i b0 hb0
  have hlt : i < s.pcs.length := by
    rw [hlen]
    exact (List.get?_eq_some.1 hb0).1
  obtain ⟨pc, hpc⟩ : ∃ pc, s.pcs.get? i = some pc := by
    rw [List.get?_eq_get hlt]
    exact ⟨_, rfl⟩
  cases pc with
  | idle => exact hbi.1 hpc
  | running k =>
    have h2 := hmx i k hpc
    rw [show s.lockHolder = none from hread] at h2
    exact Option.noConfusion h2

/-- Witness for C2: in the sample system, after one complete tick of
its block, the read is enabled and the observed block state is a
whole-tick state. -/
theorem snapshot_sees_whole_ticks_only_witness :
    ReadEnabled sW ∧
      ∃ hist, sW.cfg.blocks.get? 0 = some (wholeTicksAt shellsW envsW hist blkW) :=
  ⟨rfl, snapshot_sees_whole_ticks_only shellsW envsW cfgW sW reachW rfl 0 blkW rfl⟩

/-! Fixtures for claim C3: a two-block system caught in the middle of
the first block's tick. -/

/-- Constant shell oracle family for the C3 scenario. -/
def shells3 : Nat → Shell := fun _ _ => Except.ok "o"

/-- Constant OS oracle family for the C3 scenario. -/
def envs3 : Nat → OsEnv := fun _ => {}

/-- Group block with two commands. -/
def blkG : Block :=
  { type := "group", title := "g",
    commands := [{ label := "a", command := "ca" }, { label := "b", command := "cb" }],
    interval := 1 }

/-- Second, independent single block. -/
def blkS : Block := { type := "single", title := "s2", command := "c2", interval := 1 }

/-- Two-block tree. -/
def cfg3 : Config := { blocks := [blkG, blkS], port := 8080 }

/-- State in which block 0's scheduler holds the mutex and has executed
one of its two commands: its tick is in progress. -/
def ex3 : SysState :=
  { cfg := { blocks := [writeSlotAt shells3 envs3 0 0 blkG, blkS], last_updated := 0,
             port := 8080, version := "", colors := {} },
    pcs := [SchedPC.running 1, SchedPC.idle], lockHolder := some 0, clock := 1 }

theorem reach3 : Reachable shells3 envs3 cfg3 ex3 := by
  have h1 : Step shells3 envs3 (initState cfg3)
      { cfg := cfg3, pcs := [SchedPC.running 0, SchedPC.idle],
        lockHolder := some 0, clock := 0 } :=
    Step.acquire (initState cfg3) 0 rfl rfl
  have h2 : Step shells3 envs3
      { cfg := cfg3, pcs := [SchedPC.running 0, SchedPC.idle],
        lockHolder := some 0, clock := 0 } ex3 :=
    Step.execCmd _ 0 0 blkG rfl rfl rfl (by decide)
  exact Relation.ReflTransGen.tail (Relation.ReflTransGen.single h1) h2

/-- Counterexample for claim C3: the server reaches a state in which
block 0 is in the middle of executing its commands (it holds the global
mutex with one of two slots written), block 1 is parked and due, and yet
neither a rendering read nor block 1's tick can begin — one block's
command execution does delay the other block's schedule and does block
rendering reads, contrary to the claim. -/
theorem slow_command_blocks_counterexample :
    Reachable shells3 envs3 cfg3 ex3 ∧
      ex3.pcs.get? 0 = some (SchedPC.running 1) ∧
      ex3.pcs.get? 1 = some SchedPC.idle ∧
      ¬ ReadEnabled ex3 ∧ ¬ AcquireEnabled ex3 1 := by
  refine ⟨reach3, rfl, rfl, ?_, ?_⟩
  · intro hr
    exact Option.noConfusion (show some 0 = (none : Option Nat) from hr)
  · intro h
    exact Option.noConfusion (show some 0 = (none : Option Nat) from h.1)

/-- Claim C3 amended (proved): command execution happens while the
block's scheduler holds the single global mutex, so for as long as any
block's tick is in flight — including the whole execution time of its
commands — no rendering read can proceed and no other block can begin
its tick; a slow command therefore delays its own block's next tick and
also delays every other block's due tick and every rendering read until
the tick commits and releases the mutex. -/
theorem mutex_holder_blocks_reads_and_ticks (s : SysState) (i j : Nat)
    (h : s.lockHolder = some i) : ¬ ReadEnabled s ∧ ¬ AcquireEnabled s j := by
  constructor
  · intro hr
    rw [show s.lockHolder = none from hr] at h
    exact Option.noConfusion h
  · intro ha
    rw [ha.1] at h
    exact Option.noConfusion h

/-- Witness for the amended C3 theorem at the in-flight state `ex3`. -/
theorem mutex_holder_blocks_reads_and_ticks_witness :
    ¬ ReadEnabled ex3 ∧ ¬ AcquireEnabled ex3 1 :=
  mutex_holder_blocks_reads_and_ticks ex3 0 1 rfl

/-! Helper lemmas for the executor and resolver claims. -/

theorem isVariableRef_iff (s : String) :
    isVariableRef s = true ↔ 1 < s.length ∧ s.data.head? = some '%' := by
  have hlen : s.length = s.data.length := rfl
  cases hd : s.data with
  | nil => simp [isVariableRef, hd, hlen]
  | cons c rest =>
    cases rest with
    | nil => simp [isVariableRef, hd, hlen]
    | cons d rest2 =>
      simp only [isVariableRef, hd, hlen, List.head?, List.length_cons]
      constructor
      · intro h
        exact ⟨by omega, by rw [decide_eq_true_iff.1 h]⟩
      · intro ⟨_, h2⟩
        exact decide_eq_true (Option.some.inj h2)

theorem error_text_ne_empty (e : String) : "Error: " ++ e ≠ "" := by
  intro h
  have h2 : ("Error: " ++ e).length = ("" : String).length := by rw [h]
  rw [String.length_append] at h2
  have h3 : ("Error: " : String).length = 7 := rfl
  have h4 : ("" : String).length = 0 := rfl
  omega

/-- Claim C5 (confirmed): a command string that begins with the sentinel
`'%'` and has length > 1 is delegated to the variable resolver, always
succeeds, and invokes no shell; any other string runs as a shell command
with combined output capture, success returning the output with
surrounding whitespace trimmed and failure returning the underlying
error. -/
theorem executeCommandOrVariable_spec (shell : Shell) (env : OsEnv) (s : String) :
    (1 < s.length ∧ s.data.head? = some '%' →
      executeCommandOrVariable shell env s =
        (Except.ok (resolveVariable env s), false)) ∧
    (¬ (1 < s.length ∧ s.data.head? = some '%') →
      (∀ e, shell s = Except.error e →
        executeCommandOrVariable shell env s = (Except.error e, true)) ∧
      (∀ out, shell s = Except.ok out →
        executeCommandOrVariable shell env s = (Except.ok (trimSpace out), true))) := by
  constructor
  · intro h
    have hv : isVariableRef s = true := (isVariableRef_iff s).2 h
    unfold executeCommandOrVariable
    rw [if_pos hv]
  · intro hn
    have hv : ¬ (isVariableRef s = true) := fun h => hn ((isVariableRef_iff s).1 h)
    constructor
    · intro e he
      unfold executeCommandOrVariable
      rw [if_neg hv, he]
    · intro out ho
      unfold executeCommandOrVariable
      rw [if_neg hv, ho]

/-- OS oracle for the C5 witness. -/
def envC5 : OsEnv := { dateYMD := "2026-10-11" }

/-- Shell oracle for the C5 witness: one failing command, others
succeed with surrounding whitespace. -/
def shellC5 : Shell :=
  fun c => if c = "bad" then Except.error "exit status 1" else Except.ok " hi \n"

/-- Witness for C5: `"%date"` resolves without a shell, a failing shell
command propagates its error, a successful one returns trimmed text. -/
theorem executeCommandOrVariable_spec_witness :
    (1 < ("%date" : String).length ∧ ("%date" : String).data.head? = some '%') ∧
    executeCommandOrVariable shellC5 envC5 "%date" =
      (Except.ok "2026-10-11", false) ∧
    executeCommandOrVariable shellC5 envC5 "bad" =
      (Except.error "exit status 1", true) ∧
    executeCommandOrVariable shellC5 envC5 "echo hi" = (Except.ok "hi", true) := by
  refine ⟨by decide, ?_, ?_, ?_⟩
  · rw [(executeCommandOrVariable_spec shellC5 envC5 "%date").1 (by decide)]
    rfl
  · rw [((executeCommandOrVariable_spec shellC5 envC5 "bad").2 (by decide)).1
      "exit status 1" rfl]
  · rw [((executeCommandOrVariable_spec shellC5 envC5 "echo hi").2 (by decide)).2
      " hi \n" rfl]
    rfl

/-- Claim C6 (confirmed): variable resolution is total and never
propagates an error — an unrecognised identifier yields the fixed
placeholder, and the fallible OS queries (hostname, user, interface
addresses) render their failures as inline "Error: …" text. -/
theorem resolveVariable_total_spec (env : OsEnv) (v : String) :
    (v ∉ recognizedVariables → resolveVariable env v = "Unknown variable") ∧
    (∀ e, env.hostname = Except.error e →
      resolveVariable env "%hostname" = "Error: " ++ e) ∧
    (∀ e, env.username = Except.error e →
      resolveVariable env "%username" = "Error: " ++ e) ∧
    (∀ e, env.interfaceAddrs = Except.error e →
      resolveVariable env "%ip_address" = "Error: " ++ e) := by
  refine ⟨?_, ?_, ?_, ?_⟩
  · intro hv
    unfold resolveVariable
    split
    all_goals first
      | rfl
      | (exact absurd (by decide) hv)
  · intro e he
    have h0 : resolveVariable env "%hostname" =
        match env.hostname with
        | Except.error e' => "Error: " ++ e'
        | Except.ok h => h := rfl
    rw [h0, he]
  · intro e he
    have h0 : resolveVariable env "%username" =
        match env.username with
        | Except.error e' => "Error: " ++ e'
        | Except.ok u => u := rfl
    rw [h0, he]
  · intro e he
    have h0 : resolveVariable env "%ip_address" =
        match env.interfaceAddrs with
        | Except.error e' => "Error: " ++ e'
        | Except.ok addrs => firstIPv4 addrs := rfl
    rw [h0, he]

/-- OS oracle for the C6 witness: every fallible query fails. -/
def envC6 : OsEnv :=
  { hostname := Except.error "hx", username := Except.error "ux",
    interfaceAddrs := Except.error "ax" }

/-- Witness for C6 at concrete inputs. -/
theorem resolveVariable_total_spec_witness :
    resolveVariable envC6 "%nope" = "Unknown variable" ∧
    resolveVariable envC6 "%hostname" = "Error: hx" ∧
    resolveVariable envC6 "%username" = "Error: ux" ∧
    resolveVariable envC6 "%ip_address" = "Error: ax" :=
  ⟨(resolveVariable_total_spec envC6 "%nope").1 (by decide),
   (resolveVariable_total_spec envC6 "%nope").2.1 "hx" rfl,
   (resolveVariable_total_spec envC6 "%nope").2.2.1 "ux" rfl,
   (resolveVariable_total_spec envC6 "%nope").2.2.2 "ax" rfl⟩

/-- Claim C7 (confirmed): a failing command is recovered locally — the
affected output slot receives `"Error: " ++ cause`, every slot of the
same tick is still written with its own command's result (so slots after
a failing one are still executed and committed), and the tick changes no
other block of the tree. -/
theorem tick_failure_isolation
    (shell : Shell) (env : OsEnv) (now : Time) (cfg : Config) (i : Nat) (b : Block) :
    (∀ m, m ≠ i →
      (tickConfig shell env now i cfg).blocks.get? m = cfg.blocks.get? m) ∧
    (b.type = "single" →
      ∀ e, (executeCommandOrVariable shell env b.command).1 = Except.error e →
        (tickBlock shell env now b).output = "Error: " ++ e) ∧
    (b.type = "group" →
      ∀ k c, b.commands.get? k = some c →
        (tickBlock shell env now b).commands.get? k =
          some { c with output := execSlot shell env c.command } ∧
        ∀ e, (executeCommandOrVariable shell env c.command).1 = Except.error e →
          execSlot shell env c.command = "Error: " ++ e) := by
  refine ⟨?_, ?_, ?_⟩
  · intro m hm
    show (updateAt i (tickBlock shell env now) cfg.blocks).get? m = cfg.blocks.get? m
    exact get?_updateAt_ne _ _ _ _ hm
  · intro htype e he
    unfold tickBlock
    rw [if_pos htype]
    show execSlot shell env b.command = "Error: " ++ e
    unfold execSlot
    rw [he]
  · intro htype k c hc
    have hne : ¬ b.type = "single" := by rw [htype]; decide
    constructor
    · unfold tickBlock
      rw [if_neg hne, if_pos htype]
      show (b.commands.map _).get? k = _
      rw [List.get?_map, hc]
      rfl
    · intro e he
      unfold execSlot
      rw [he]

/-- Shell oracle for the C7 witness: `"false"` fails, others succeed. -/
def shellC7 : Shell :=
  fun c => if c = "false" then Except.error "exit status 1" else Except.ok "okv"

/-- OS oracle for the C7 witness. -/
def envC7 : OsEnv := {}

/-- Group block for the C7 witness: a failing command followed by a
succeeding one. -/
def blkC7 : Block :=
  { type := "group", title := "g",
    commands := [{ label := "f", command := "false" }, { label := "s", command := "u" }],
    interval := 1 }

/-- Second block of the C7 witness tree, untouched by block 0's tick. -/
def blkC7b : Block := { type := "single", title := "o", command := "c", interval := 1 }

/-- Witness tree for C7. -/
def cfgC7 : Config := { blocks := [blkC7, blkC7b], port := 8080 }

/-- Witness for C7: after the tick, slot 0 carries the inline error,
slot 1 still carries its own command's output, and block 1 is
unchanged. -/
theorem tick_failure_isolation_witness :
    (tickConfig shellC7 envC7 9 0 cfgC7).blocks.get? 1 = cfgC7.blocks.get? 1 ∧
    (tickBlock shellC7 envC7 9 blkC7).commands.get? 0 =
      some { label := "f", command := "false", output := "Error: exit status 1" } ∧
    (tickBlock shellC7 envC7 9 blkC7).commands.get? 1 =
      some { label := "s", command := "u", output := "okv" } := by
  refine ⟨(tick_failure_isolation shellC7 envC7 9 cfgC7 0 blkC7).1 1 (by decide),
    ?_, ?_⟩
  · rw [((tick_failure_isolation shellC7 envC7 9 cfgC7 0 blkC7).2.2 rfl 0
      { label := "f", command := "false" } rfl).1]
    rfl
  · rw [((tick_failure_isolation shellC7 envC7 9 cfgC7 0 blkC7).2.2 rfl 1
      { label := "s", command := "u" } rfl).1]
    rfl

/-! Fixtures for claim C9. -/

/-- Shell oracle whose command output is empty (as `true` produces). -/
def shell9 : Shell := fun _ => Except.ok ""

/-- OS oracle for the C9 scenario. -/
def env9 : OsEnv := {}

/-- Single block whose command succeeds with empty output. -/
def blk9 : Block :=
  { type := "single", title := "T", command := "true", interval := 5,
    output := "x", last_updated := 0 }

/-- Counterexample for claim C9: a tick completes (the timestamp is
stamped), yet the block's output slot is the empty string — a
successfully executed command whose combined output is empty (for
example `true`) leaves an empty slot, so "every output slot … is a
non-empty string" is false. -/
theorem empty_output_slot_counterexample :
    (tickBlock shell9 env9 1 blk9).last_updated = 1 ∧
    (tickBlock shell9 env9 1 blk9).output = "" := by
  constructor
  · rfl
  · rfl

/-- Claim C9 amended (proved): after a tick whose clock reading exceeds
the block's stored timestamp, `last_updated` strictly increases (it is
set to the tick's reading), and every output slot of the tick's type is
freshly written: a failing slot receives the non-empty inline
`"Error: …"` text, a succeeding slot receives the command's trimmed
output — which may be empty, so non-emptiness holds for error slots but
not for success slots. -/
theorem tick_updates_timestamp_and_slots
    (shell : Shell) (env : OsEnv) (now : Time) (b : Block)
    (hnow : b.last_updated < now) :
    b.last_updated < (tickBlock shell env now b).last_updated ∧
    (tickBlock shell env now b).last_updated = now ∧
    (b.type = "single" →
      (∀ e, (executeCommandOrVariable shell env b.command).1 = Except.error e →
        (tickBlock shell env now b).output = "Error: " ++ e ∧
          (tickBlock shell env now b).output ≠ "") ∧
      (∀ out, (executeCommandOrVariable shell env b.command).1 = Except.ok out →
        (tickBlock shell env now b).output = out)) ∧
    (b.type = "group" →
      (tickBlock shell env now b).commands.length = b.commands.length ∧
      ∀ k c, b.commands.get? k = some c →
        ∀ e, (executeCommandOrVariable shell env c.command).1 = Except.error e →
          ∃ c', (tickBlock shell env now b).commands.get? k = some c' ∧
            c'.output = "Error: " ++ e ∧ c'.output ≠ "") := by
  have hlast : (tickBlock shell env now b).last_updated = now := rfl
  refine ⟨by rw [hlast]; exact hnow, hlast, ?_, ?_⟩
  · intro htype
    constructor
    · intro e he
      have ho : (tickBlock shell env now b).output = "Error: " ++ e := by
        unfold tickBlock
        rw [if_pos htype]
        show execSlot shell env b.command = "Error: " ++ e
        unfold execSlot
        rw [he]
      exact ⟨ho, by rw [ho]; exact error_text_ne_empty e⟩
    · intro out ho
      unfold tickBlock
      rw [if_pos htype]
      show execSlot shell env b.command = out
      unfold execSlot
      rw [ho]
  · intro htype
    have hne : ¬ b.type = "single" := by rw [htype]; decide
    constructor
    · unfold tickBlock
      rw [if_neg hne, if_pos htype]
      exact List.length_map _ _
    · intro k c hc e he
      have hslot : execSlot shell env c.command = "Error: " ++ e := by
        unfold execSlot
        rw [he]
      refine ⟨{ c with output := execSlot shell env c.command }, ?_, ?_, ?_⟩
      · unfold tickBlock
        rw [if_neg hne, if_pos htype]
        show (b.commands.map _).get? k = _
        rw [List.get?_map, hc]
        rfl
      · exact hslot
      · show execSlot shell env c.command ≠ ""
        rw [hslot]
        exact error_text_ne_empty e

/-- Shell oracle for the C9 amended witness: the command fails. -/
def shellC9w : Shell := fun _ => Except.error "boom"

/-- Failing single block for the C9 amended witness. -/
def blkC9w : Block :=
  { type := "single", title := "w", command := "x", interval := 1, last_updated := 0 }

/-- Witness for the amended C9 theorem: the timestamp strictly
increases and the failing slot carries non-empty error text. -/
theorem tick_updates_timestamp_and_slots_witness :
    blkC9w.last_updated < (tickBlock shellC9w env9 3 blkC9w).last_updated ∧
    (tickBlock shellC9w env9 3 blkC9w).output = "Error: boom" ∧
    (tickBlock shellC9w env9 3 blkC9w).output ≠ "" := by
  have h := tick_updates_timestamp_and_slots shellC9w env9 3 blkC9w (by decide)
  have h2 := (h.2.2.1 rfl).1 "boom" rfl
  exact ⟨h.1, h2.1, h2.2⟩

/-! Fixtures for claim C10. -/

/-- Shell oracle for the C10 witness (never consulted by the tick). -/
def shellC10 : Shell := fun _ => Except.ok "z"

/-- OS oracle for the C10 witness. -/
def envC10 : OsEnv := {}

/-- Block whose type tag is neither "single" nor "group". -/
def blkC10 : Block :=
  { type := "weird", title := "w", command := "c", output := "old",
    commands := [{ label := "l", command := "lc", output := "lo" }],
    interval := 1, last_updated := 0 }

/-- One-block tree for the C10 witness. -/
def cfgC10 : Config := { blocks := [blkC10], port := 8080 }

/-- Claim C10 (confirmed): a tick of a block whose type tag is neither
"single" nor "group" matches no case of the switch, so it executes no
commands and leaves every output slot unchanged, yet still stamps both
the block's and the tree's `last_updated` with the current time. -/
theorem unknown_type_tick_spec
    (shell : Shell) (env : OsEnv) (now : Time) (cfg : Config) (i : Nat) (b : Block)
    (hb : cfg.blocks.get? i = some b)
    (h1 : b.type ≠ "single") (h2 : b.type ≠ "group") :
    (tickConfig shell env now i cfg).blocks.get? i =
      some { b with last_updated := now } ∧
    (tickConfig shell env now i cfg).last_updated = now ∧
    tickExecLog b = [] := by
  refine ⟨?_, rfl, ?_⟩
  · show (updateAt i (tickBlock shell env now) cfg.blocks).get? i = _
    rw [get?_updateAt_self, hb]
    simp only [Option.map_some']
    unfold tickBlock
    rw [if_neg h1, if_neg h2]
  · unfold tickExecLog
    rw [if_neg h1, if_neg h2]

/-- Witness for C10: the unknown-type block keeps its stale outputs but
receives the fresh timestamps; no command string is submitted. -/
theorem unknown_type_tick_spec_witness :
    (tickConfig shellC10 envC10 7 0 cfgC10).blocks.get? 0 =
      some { blkC10 with last_updated := 7 } ∧
    (tickConfig shellC10 envC10 7 0 cfgC10).last_updated = 7 ∧
    tickExecLog blkC10 = [] :=
  unknown_type_tick_spec shellC10 envC10 7 cfgC10 0 blkC10 rfl
    (by decide) (by decide)

/-! Round-trip lemmas: decoding an encoded value restores it. -/

theorem getField_cons (k0 : String) (j : Json) (fs : List (String × Json))
    (k : String) :
    getField ((k0, j) :: fs) k = if k0 = k then some j else getField fs k := by
  by_cases h : k0 = k
  · unfold getField
    rw [List.find?_cons_of_pos _ (by simp [h]), if_pos h]
    rfl
  · unfold getField
    rw [List.find?_cons_of_neg _ (by simp [h]), if_neg h]

theorem getField_optStrFields_none :
    ∀ (l : List (String × String)) (k : String),
    (∀ p ∈ l, p.1 ≠ k) → getField (optStrFields l) k = none := by
  intro l
  induction l with
  | nil => intro k _; rfl
  | cons p rest ih =>
    intro k hk
    obtain ⟨k0, v0⟩ := p
    show getField (optStr k0 v0 ++ optStrFields rest) k = none
    unfold optStr
    by_cases hv : v0 = ""
    · rw [if_pos hv]
      simp only [List.nil_append]
      exact ih k fun q hq => hk q (List.mem_cons_of_mem _ hq)
    · rw [if_neg hv]
      simp only [List.singleton_append]
      rw [getField_cons, if_neg (hk (k0, v0) (List.mem_cons_self _ _))]
      exact ih k fun q hq => hk q (List.mem_cons_of_mem _ hq)

theorem decStr_optStrFields :
    ∀ (l : List (String × String)) (k v : String),
    (l.map Prod.fst).Nodup → (k, v) ∈ l →
    decStr (optStrFields l) k = some v := by
  intro l
  induction l with
  | nil => intro k v _ hm; cases hm
  | cons p rest ih =>
    intro k v hnd hm
    obtain ⟨k0, v0⟩ := p
    have hnd2 := List.nodup_cons.1 hnd
    rcases List.mem_cons.1 hm with heq | hmem
    · injection heq with hk hv
      subst hk
      subst hv
      show decStr (optStr k v ++ optStrFields rest) k = some v
      unfold optStr
      by_cases hv0 : v = ""
      · rw [if_pos hv0]
        simp only [List.nil_append]
        have hno : getField (optStrFields rest) k = none := by
          refine getField_optStrFields_none rest k fun q hq hqk => ?_
          have h1 : q.1 ∈ rest.map Prod.fst := List.mem_map_of_mem Prod.fst hq
          rw [hqk] at h1
          exact hnd2.1 h1
        unfold decStr
        rw [hno, hv0]
      · rw [if_neg hv0]
        simp only [List.singleton_append]
        unfold decStr
        rw [getField_cons, if_pos rfl]
    · have hk0 : k0 ≠ k := by
        intro hkk
        have : k ∈ rest.map Prod.fst := by
          have := List.mem_map_of_mem Prod.fst hmem
          simpa using this
        exact hnd2.1 (hkk ▸ this)
      show decStr (optStr k0 v0 ++ optStrFields rest) k = some v
      unfold optStr
      by_cases hv0 : v0 = ""
      · rw [if_pos hv0]
        simp only [List.nil_append]
        exact ih k v hnd2.2 hmem
      · rw [if_neg hv0]
        simp only [List.singleton_append]
        have hrest := ih k v hnd2.2 hmem
        unfold decStr at hrest ⊢
        rw [getField_cons, if_neg hk0]
        exact hrest

theorem decodeBlockColors_encode (c : BlockColors) :
    decodeBlockColors (encodeBlockColors c) = some c := by
  obtain ⟨x1, x2, x3, x4, x5, x6, x7, x8, x9, x10⟩ := c
  show decodeBlockColorsFields (optStrFields
    [("background", x1), ("title_color", x2), ("title_background", x3),
     ("title_font_size", x4), ("label_color", x5), ("label_background", x6),
     ("label_font_size", x7), ("value_color", x8), ("value_background", x9),
     ("value_font_size", x10)]) = _
  have hnd : (([("background", x1), ("title_color", x2), ("title_background", x3),
      ("title_font_size", x4), ("label_color", x5), ("label_background", x6),
      ("label_font_size", x7), ("value_color", x8), ("value_background", x9),
      ("value_font_size", x10)] : List (String × String)).map Prod.fst).Nodup := by
    show (["background", "title_color", "title_background", "title_font_size",
           "label_color", "label_background", "label_font_size", "value_color",
           "value_background", "value_font_size"] : List String).Nodup
    decide
  unfold decodeBlockColorsFields
  rw [decStr_optStrFields _ "background" x1 hnd (by simp),
      decStr_optStrFields _ "title_color" x2 hnd (by simp),
      decStr_optStrFields _ "title_background" x3 hnd (by simp),
      decStr_optStrFields _ "title_font_size" x4 hnd (by simp),
      decStr_optStrFields _ "label_color" x5 hnd (by simp),
      decStr_optStrFields _ "label_background" x6 hnd (by simp),
      decStr_optStrFields _ "label_font_size" x7 hnd (by simp),
      decStr_optStrFields _ "value_color" x8 hnd (by simp),
      decStr_optStrFields _ "value_background" x9 hnd (by simp),
      decStr_optStrFields _ "value_font_size" x10 hnd (by simp)]

theorem decodeGlobalColors_encode (g : GlobalColors) :
    decodeGlobalColors (encodeGlobalColors g) = some g := by
  obtain ⟨pg⟩ := g
  by_cases hpg : pg = ""
  · subst hpg
    rfl
  · show decodeGlobalColors (Json.obj (optStr "page_background" pg ++ [])) = _
    unfold optStr
    rw [if_neg hpg]
    rfl

theorem decodeCommand_encode (c : Command) :
    decodeCommand (encodeCommand c) = some c := by
  obtain ⟨l, c0, o⟩ := c
  rfl

theorem mapM_decodeCommand (l : List Command) :
    (l.map encodeCommand).mapM decodeCommand = some l := by
  induction l with
  | nil => rfl
  | cons c cs ih =>
    rw [List.map_cons, List.mapM_cons, decodeCommand_encode, ih]
    rfl

theorem getField_nil (k : String) : getField [] k = none := rfl

theorem getField_optStr_append_ne (k0 v : String) (fs : List (String × Json))
    (k : String) (h : k0 ≠ k) :
    getField (optStr k0 v ++ fs) k = getField fs k := by
  unfold optStr
  by_cases hv : v = ""
  · rw [if_pos hv, List.nil_append]
  · rw [if_neg hv, List.singleton_append, getField_cons, if_neg h]

theorem getField_optStr_append_self (k v : String) (fs : List (String × Json)) :
    getField (optStr k v ++ fs) k =
      if v = "" then getField fs k else some (Json.str v) := by
  unfold optStr
  by_cases hv : v = ""
  · rw [if_pos hv, if_pos hv, List.nil_append]
  · rw [if_neg hv, if_neg hv, List.singleton_append, getField_cons, if_pos rfl]

theorem getField_iteSeg_ne (cond : Prop) [Decidable cond] (kc : String) (j : Json)
    (fs : List (String × Json)) (k : String) (h : kc ≠ k) :
    getField ((if cond then [] else [(kc, j)]) ++ fs) k = getField fs k := by
  split
  · rw [List.nil_append]
  · rw [List.singleton_append, getField_cons, if_neg h]

theorem decStr_encodeBlockFields_type (b : Block) :
    decStr (encodeBlockFields b) "type" = some b.type := by
  unfold decStr
  simp only [encodeBlockFields, List.cons_append, List.nil_append,
    List.append_assoc]
  rw [getField_cons, if_pos rfl]

theorem decStr_encodeBlockFields_title (b : Block) :
    decStr (encodeBlockFields b) "title" = some b.title := by
  unfold decStr
  simp only [encodeBlockFields, List.cons_append, List.nil_append,
    List.append_assoc]
  rw [getField_cons, if_neg (by decide), getField_cons, if_pos rfl]

theorem decStr_encodeBlockFields_command (b : Block) :
    decStr (encodeBlockFields b) "command" = some b.command := by
  unfold decStr
  simp only [encodeBlockFields, List.cons_append, List.nil_append,
    List.append_assoc]
  rw [getField_cons, if_neg (by decide), getField_cons, if_neg (by decide),
      getField_optStr_append_self]
  by_cases hc : b.command = ""
  · rw [if_pos hc, getField_iteSeg_ne _ _ _ _ _ (by decide), getField_cons,
      if_neg (by decide), getField_optStr_append_ne _ _ _ _ (by decide),
      getField_cons, if_neg (by decide), getField_cons, if_neg (by decide),
      getField_nil, hc]
  · rw [if_neg hc]

theorem decCommands_encodeBlockFields (b : Block) :
    decCommands (encodeBlockFields b) = some b.commands := by
  unfold decCommands
  simp only [encodeBlockFields, List.cons_append, List.nil_append,
    List.append_assoc]
  rw [getField_cons, if_neg (by decide), getField_cons, if_neg (by decide),
      getField_optStr_append_ne _ _ _ _ (by decide)]
  cases hbc : b.commands with
  | nil =>
    rw [if_pos (by decide : ([] : List Command).isEmpty = true), List.nil_append,
      getField_cons, if_neg (by decide),
      getField_optStr_append_ne _ _ _ _ (by decide), getField_cons,
      if_neg (by decide), getField_cons, if_neg (by decide), getField_nil]
  | cons c0 cs0 =>
    rw [if_neg (fun h => Bool.noConfusion h), List.singleton_append,
      getField_cons, if_pos rfl]
    exact mapM_decodeCommand (c0 :: cs0)

theorem decInt_encodeBlockFields_interval (b : Block) :
    decInt (encodeBlockFields b) "interval" = some b.interval := by
  unfold decInt
  simp only [encodeBlockFields, List.cons_append, List.nil_append,
    List.append_assoc]
  rw [getField_cons, if_neg (by decide), getField_cons, if_neg (by decide),
      getField_optStr_append_ne _ _ _ _ (by decide),
      getField_iteSeg_ne _ _ _ _ _ (by decide), getField_cons, if_pos rfl]

theorem decStr_encodeBlockFields_output (b : Block) :
    decStr (encodeBlockFields b) "output" = some b.output := by
  unfold decStr
  simp only [encodeBlockFields, List.cons_append, List.nil_append,
    List.append_assoc]
  rw [getField_cons, if_neg (by decide), getField_cons, if_neg (by decide),
      getField_optStr_append_ne _ _ _ _ (by decide),
      getField_iteSeg_ne _ _ _ _ _ (by decide), getField_cons, if_neg (by decide),
      getField_optStr_append_self]
  by_cases ho : b.output = ""
  · rw [if_pos ho, getField_cons, if_neg (by decide), getField_cons,
      if_neg (by decide), getField_nil, ho]
  · rw [if_neg ho]

theorem decTime_encodeBlockFields (b : Block) :
    decTime (encodeBlockFields b) "last_updated" = some b.last_updated := by
  unfold decTime
  simp only [encodeBlockFields, List.cons_append, List.nil_append,
    List.append_assoc]
  rw [getField_cons, if_neg (by decide), getField_cons, if_neg (by decide),
      getField_optStr_append_ne _ _ _ _ (by decide),
      getField_iteSeg_ne _ _ _ _ _ (by decide), getField_cons, if_neg (by decide),
      getField_optStr_append_ne _ _ _ _ (by decide), getField_cons, if_pos rfl]
  rfl

theorem decBlockColorsField_encodeBlockFields (b : Block) :
    decBlockColorsField (encodeBlockFields b) = some b.colors := by
  unfold decBlockColorsField
  simp only [encodeBlockFields, List.cons_append, List.nil_append,
    List.append_assoc]
  rw [getField_cons, if_neg (by decide), getField_cons, if_neg (by decide),
      getField_optStr_append_ne _ _ _ _ (by decide),
      getField_iteSeg_ne _ _ _ _ _ (by decide), getField_cons, if_neg (by decide),
      getField_optStr_append_ne _ _ _ _ (by decide), getField_cons,
      if_neg (by decide), getField_cons, if_pos rfl]
  exact decodeBlockColors_encode b.colors

theorem decodeBlock_encode (b : Block) : decodeBlock (encodeBlock b) = some b := by
  show decodeBlock (Json.obj (encodeBlockFields b)) = some b
  simp only [decodeBlock]
  rw [decStr_encodeBlockFields_type, decStr_encodeBlockFields_title,
      decStr_encodeBlockFields_command, decCommands_encodeBlockFields,
      decInt_encodeBlockFields_interval, decStr_encodeBlockFields_output,
      decTime_encodeBlockFields, decBlockColorsField_encodeBlockFields]

theorem mapM_decodeBlock (l : List Block) :
    (l.map encodeBlock).mapM decodeBlock = some l := by
  induction l with
  | nil => rfl
  | cons b bs ih =>
    rw [List.map_cons, List.mapM_cons, decodeBlock_encode, ih]
    rfl

theorem decodeConfig_encode (cfg : Config) :
    decodeConfig (encodeConfig cfg) = some cfg := by
  show decodeConfig (Json.obj (encodeConfigFields cfg)) = some cfg
  simp only [decodeConfig]
  rw [show decBlocks (encodeConfigFields cfg) =
        (cfg.blocks.map encodeBlock).mapM decodeBlock from rfl,
      mapM_decodeBlock,
      show decGlobalColorsField (encodeConfigFields cfg) =
        decodeGlobalColors (encodeGlobalColors cfg.colors) from rfl,
      decodeGlobalColors_encode]
  rfl

/-- Claim C8 (confirmed): persisting a configuration tree and loading
it back reproduces an equal tree field for field, except the field
regenerated on load: a zero (or missing) port becomes 8080. -/
theorem config_save_load_roundtrip (cfg : Config) :
    getFreshConfigModel (encodeConfig cfg) =
      some { cfg with port := if cfg.port = 0 then 8080 else cfg.port } ∧
    getFreshConfigModel (Json.obj []) =
      some { blocks := [], last_updated := 0, port := 8080, version := "",
             colors := {} } := by
  constructor
  · unfold getFreshConfigModel
    rw [decodeConfig_encode]
    simp only [Option.map_some']
    by_cases hp : cfg.port = 0
    · rw [if_pos hp, if_pos hp]
    · rw [if_neg hp, if_neg hp]
  · rfl

/-! Fixtures and theorems for claim C1. -/

/-- Shell oracle for the C1 scenario. -/
def shellC1 : Shell := fun _ => Except.ok "v1"

/-- OS oracle for the C1 scenario. -/
def envC1 : OsEnv := {}

/-- Block of the C1 scenario. -/
def blkC1 : Block :=
  { type := "single", title := "b", command := "cmd", interval := 1,
    last_updated := 0 }

/-- Tree of the C1 scenario. -/
def cfgC1 : Config := { blocks := [blkC1], port := 8080 }

/-- Server state whose file holds the tree as last persisted. -/
def sC1 : ServerState := { mem := cfgC1, file := some (encodeConfig cfgC1) }

/-- Counterexample for claim C1: after one scheduler tick in server
mode, the durable file does not hold the mutated tree — the tick's
commit (`runBlock`, main.go lines 591-614) contains no persistence
write, so the claim that every tick's mutation is followed by a
persistence write within the same commit is false. -/
theorem server_tick_not_persisted_counterexample :
    (serverTick shellC1 envC1 1 0 sC1).file ≠
      some (encodeConfig (serverTick shellC1 envC1 1 0 sC1).mem) := by
  intro h
  have h0 : (serverTick shellC1 envC1 1 0 sC1).file = some (encodeConfig cfgC1) := rfl
  rw [h0] at h
  have h1 : encodeConfig cfgC1 =
      encodeConfig (serverTick shellC1 envC1 1 0 sC1).mem := Option.some.inj h
  have h2 := congrArg decodeConfig h1
  rw [decodeConfig_encode, decodeConfig_encode] at h2
  have h3 : cfgC1 = (serverTick shellC1 envC1 1 0 sC1).mem := Option.some.inj h2
  exact absurd h3 (by decide)

/-- Claim C1 amended (proved): in server mode a scheduler tick commits
the block's results and the timestamps to the in-memory tree under the
mutex but performs no persistence write — the durable file is unchanged
by the tick.  Whole-tree persistence as one file overwrite is performed
by `saveConfigToFile`, which is invoked when the default configuration
is first created and on every static-generation pass (which saves the
freshly ticked tree), not after server-mode tick mutations. -/
theorem server_tick_leaves_file_unchanged
    (shell : Shell) (env : OsEnv) (now : Time) (i : Nat) (s : ServerState)
    (cfg : Config) :
    (serverTick shell env now i s).file = s.file ∧
    (serverTick shell env now i s).mem = tickConfig shell env now i s.mem ∧
    (saveConfigToFileM cfg s).file = some (encodeConfig cfg) ∧
    (staticGenerationPersist shell env now cfg s).file =
      some (encodeConfig (staticUpdate shell env now cfg)) :=
  ⟨rfl, rfl, rfl, rfl⟩

/-! Fixtures and theorems for claim C4. -/

theorem jsonToString_obj_ne_null (fs : List (String × Json)) :
    jsonToString (Json.obj fs) ≠ "null" := by
  intro h
  have h1 : jsonToString (Json.obj fs) =
      "\x7b" ++ jsonObjStr fs ++ "\x7d" := rfl
  rw [h1] at h
  have hd : ("\x7b" ++ jsonObjStr fs ++ "\x7d").data = "null".data :=
    congrArg String.data h
  rw [String.data_append, String.data_append] at hd
  have hd2 : '{' :: ((jsonObjStr fs).data ++ "\x7d".data) =
      'n' :: ['u', 'l', 'l'] := hd
  injection hd2 with h3 _
  exact absurd h3 (by decide)

/-- Template oracle that reveals the embedded ConfigJSON datum. -/
def probeTmpl : TemplateData → String := fun d => d.configJSON

/-- Concrete tree for the C4 counterexample. -/
def cfgC4 : Config := { blocks := [], port := 8080, version := "v" }

/-- Counterexample for claim C4: on a concrete tree, the root-page
renderer (`generateDynamicHTML`) hands the template the literal text
"null" as its ConfigJSON datum, while the JSON data endpoint's
serialized snapshot of the same tree is a different text — the root
page does not embed the snapshot JSON-serialized. -/
theorem rootPage_embeds_null_counterexample :
    generateDynamicHTML probeTmpl none = "null" ∧
    jsonToString (dataHandlerJson cfgC4) ≠ "null" := by
  refine ⟨rfl, ?_⟩
  exact jsonToString_obj_ne_null (encodeConfigFields cfgC4)

/-- Claim C4 amended (proved): for every root-page request the dynamic
renderer executes the template on data whose ConfigJSON field is the
literal "null" (never the snapshot: a marshalled tree is a JSON object,
whose text is never "null") together with the base64 icon datum; the
snapshot is embedded JSON-serialized only by the static-generation
renderer `generateHTML`; the data endpoint serves the snapshot
JSON-encoded directly. -/
theorem rootPage_dynamic_embeds_null
    (tmpl : TemplateData → String) (icon : Option String) (cfg : Config) :
    generateDynamicHTML tmpl icon =
      tmpl { configJSON := "null", iconDataURI := iconURI icon } ∧
    generateHTML tmpl cfg icon =
      tmpl { configJSON := jsonToString (encodeConfig cfg),
             iconDataURI := iconURI icon } ∧
    jsonToString (encodeConfig cfg) ≠ "null" ∧
    dataHandlerJson cfg = encodeConfig cfg :=
  ⟨rfl, rfl, jsonToString_obj_ne_null (encodeConfigFields cfg), rfl⟩

end Dazibao
